import Mathlib

/-!
Shallow embedding of the `WorkerGLProxy` mediator (owner side) and the
worker-side call stubs (`gl-worker.js`) of the webgl-proxy-experiments
repository.

JavaScript values that cross the message boundary are modelled by `JSVal`:
primitives, opaque heap objects identified by a reference number (object
identity is reference equality), and the `{fakeClone: true, index}` handle
objects the proxy fabricates for non-cloneable results.  JavaScript
truthiness and the `typeof v === 'object'` test are modelled explicitly
(note `typeof null === 'object'`).

The WebGL context `gl` is abstracted as `GLSpec`: a predicate saying which
method names exist (truthily) on the context and a transition function from
(method name, argument list, context state) to (result, new context state).
The proxy never inspects `gl` beyond these two uses.  The sequence of
method applications the proxy performs on the context is returned as an
explicit call trace (a list of the resolved commands actually applied), so
that ordering properties can be stated.
-/

namespace WebGLProxy

/-- A JavaScript value as seen by the proxy protocol. -/
inductive JSVal where
  | undef : JSVal
  | null : JSVal
  | jsBool : Bool → JSVal
  | num : Int → JSVal
  | str : String → JSVal
  | obj : Nat → JSVal
  | handle : Nat → JSVal
deriving DecidableEq, Repr

/-- JavaScript truthiness of a value. -/
def JSVal.truthy : JSVal → Bool
  | .undef => false
  | .null => false
  | .jsBool b => b
  | .num n => n != 0
  | .str s => s != ""
  | .obj _ => true
  | .handle _ => true

/-- The `typeof v === 'object'` test (true for `null` and for the handle
objects, which are plain object literals). -/
def JSVal.isObjectType : JSVal → Bool
  | .null => true
  | .obj _ => true
  | .handle _ => true
  | _ => false

/-- JavaScript string coercion, as used when a value is concatenated into
the targetted-bind cache key `message.name + '-' + message.args[0]`. -/
def JSVal.keyStr : JSVal → String
  | .undef => "undefined"
  | .null => "null"
  | .jsBool true => "true"
  | .jsBool false => "false"
  | .num n => toString n
  | .str s => s
  | .obj _ => "[object Object]"
  | .handle _ => "[object Object]"

/-- Lookup in an insertion-ordered association list (a JS object used as a
map); `none` when the key is absent. -/
def findA {κ α : Type} [BEq κ] : List (κ × α) → κ → Option α
  | [], _ => none
  | p :: rest, k => if p.1 == k then some p.2 else findA rest k

/-- Property assignment on a JS object used as a map: overwrite the entry
in place when the key exists, otherwise append (JS objects keep insertion
order for string keys; keys are unique). -/
def setA {κ α : Type} [BEq κ] : List (κ × α) → κ → α → List (κ × α)
  | [], k, v => [(k, v)]
  | p :: rest, k, v => if p.1 == k then (k, v) :: rest else p :: setA rest k v

/-- The flat fields of a protocol message: `{workerId, id, name, args,
wantsResponse, isFrameEnd}`.  A field absent on the wire reads as
`undefined`, i.e. as `false` where only its truthiness is consulted. -/
structure Cmd where
  workerId : JSVal
  id : Nat
  name : String
  args : List JSVal
  wantsResponse : Bool
  isFrameEnd : Bool
deriving DecidableEq, Repr

/-- A message as dispatched to `onMessage`: a command, or a batch carrying
a `messages` array of commands. -/
structure Message extends Cmd where
  messages : Option (List Cmd)
deriving DecidableEq, Repr

/-- View a bare command (e.g. one replayed from the sticky caches, which
never carries a `messages` field) as a message. -/
def Cmd.toMessage (c : Cmd) : Message := ⟨c, none⟩

/-- Abstraction of the WebGL context: which method names it has (truthily),
and what applying a method does to its state. -/
structure GLSpec where
  has : String → Bool
  run : String → List JSVal → Nat → JSVal × Nat

/-- An entry of the diagnostic result trace: `{args, res}`. -/
structure TraceEntry where
  args : List JSVal
  res : JSVal
deriving DecidableEq, Repr

/-- The mutable state of one `WorkerGLProxy` instance, together with the
abstract state of the shared gl context it drives. -/
structure ProxyState where
  uncloneables : List (Nat × JSVal)
  cache : List (String × List TraceEntry)
  commandBuffer : List Message
  lastUseProgram : Option Cmd
  lastTargettedBinds : List (String × Cmd)
  buffering : Bool
  frameEndListener : Bool
  glState : Nat
deriving DecidableEq, Repr

/-- State of a freshly constructed proxy, over a gl context in state `s`. -/
def initState (s : Nat) : ProxyState :=
  { uncloneables := []
    cache := []
    commandBuffer := []
    lastUseProgram := none
    lastTargettedBinds := []
    buffering := false
    frameEndListener := false
    glState := s }

/-- The fixed suppression blacklist of `executeOneCommand`:
`{clear: true}`. -/
def blacklisted (name : String) : Bool := name == "clear"

/-- The fixed targetted-bind list of `executeOneCommand`:
`{bindBuffer, bindFramebuffer, bindRenderbuffer, bindTexture}`. -/
def isTargettedBind (name : String) : Bool :=
  name == "bindBuffer" || name == "bindFramebuffer" ||
  name == "bindRenderbuffer" || name == "bindTexture"

/-- Argument resolution: `if (arg && arg.fakeClone) arg =
uncloneables[arg.index]`.  Only the fabricated handle objects have a truthy
`fakeClone` field; an absent registry entry reads as `undefined`. -/
def resolveArg (unc : List (Nat × JSVal)) : JSVal → JSVal
  | .handle i => (findA unc i).getD JSVal.undef
  | v => v

/-- Result of executing a message: the value the execute function returns,
the updated proxy state, and the trace of commands actually applied to the
gl context (with their resolved arguments). -/
structure ExecOut where
  res : JSVal
  state : ProxyState
  calls : List Cmd
deriving DecidableEq, Repr

/-- The targetted-bind cache key of a (resolved) command:
`message.name + '-' + message.args[0]`. -/
def bindKeyOf (c : Cmd) : String :=
  c.name ++ "-" ++ (c.args.headD JSVal.undef).keyStr

/-- `WorkerGLProxy.executeOneCommand`: resolve handle arguments in place,
silently ignore unknown and blacklisted operations, record sticky
mode-setter and targetted-bind state, apply the operation to the gl
context, trace truthy primitive results, and wrap object results as
handles registered under the request id. -/
def executeOneCommand (g : GLSpec) (st : ProxyState) (c : Cmd) : ExecOut :=
  let args := c.args.map (resolveArg st.uncloneables)
  let c := { c with args := args }
  if !g.has c.name then ⟨JSVal.undef, st, []⟩
  else if blacklisted c.name then ⟨JSVal.undef, st, []⟩
  else
    let st := if c.name == "useProgram" then { st with lastUseProgram := some c } else st
    let st :=
      if isTargettedBind c.name then
        { st with lastTargettedBinds := setA st.lastTargettedBinds (bindKeyOf c) c }
      else st
    let p := g.run c.name args st.glState
    let res := p.1
    let st := { st with glState := p.2 }
    let st :=
      if res.truthy && !res.isObjectType then
        { st with cache := setA st.cache c.name (((findA st.cache c.name).getD []) ++ [⟨args, res⟩]) }
      else st
    if res.isObjectType then
      ⟨JSVal.handle c.id, { st with uncloneables := setA st.uncloneables c.id res }, [c]⟩
    else
      ⟨res, st, [c]⟩

/-- Execute a list of bare commands in order via `executeOneCommand`,
threading the proxy state and concatenating the gl call traces. -/
def execCmds (g : GLSpec) (st : ProxyState) : List Cmd → ProxyState × List Cmd
  | [] => (st, [])
  | c :: rest =>
      let o := executeOneCommand g st c
      let r := execCmds g o.state rest
      (r.1, o.calls ++ r.2)

/-- `WorkerGLProxy.executeCommand`: unpack a batch (executing each inner
command in order) or execute a single command.  The source function has no
return statement, so its value is always `undefined`; the value produced
by `executeOneCommand` is dropped. -/
def executeCommand (g : GLSpec) (st : ProxyState) (m : Message) : ExecOut :=
  match m.messages with
  | some ms =>
      let r := execCmds g st ms
      ⟨JSVal.undef, r.1, r.2⟩
  | none =>
      let o := executeOneCommand g st m.toCmd
      ⟨JSVal.undef, o.state, o.calls⟩

/-- A message the proxy posts back to its worker. -/
inductive Post where
  | reply : Nat → JSVal → Post
  | frame : Int → Post
deriving DecidableEq, Repr

/-- Outcome of dispatching one inbound message: new state, gl call trace,
posted messages, and whether the frame-end listener was invoked. -/
structure DispatchOut where
  state : ProxyState
  calls : List Cmd
  posts : List Post
  frameEndFired : Bool
deriving DecidableEq, Repr

/-- `WorkerGLProxy.onMessage`: drop messages for another workerId; resolve
a registered frame-end listener on a frame-end signal; buffer while
buffering; otherwise execute immediately and, if `wantsResponse` is
truthy, post `{id, result}` where `result` is `executeCommand`'s value. -/
def onMessage (g : GLSpec) (workerId : JSVal) (st : ProxyState) (m : Message) : DispatchOut :=
  if m.workerId ≠ workerId then ⟨st, [], [], false⟩
  else if st.frameEndListener && m.isFrameEnd then ⟨st, [], [], true⟩
  else if st.buffering then
    ⟨{ st with commandBuffer := st.commandBuffer ++ [m] }, [], [], false⟩
  else
    let o := executeCommand g st m
    ⟨o.state, o.calls, if m.wantsResponse then [Post.reply m.id o.res] else [], false⟩

/-- Dispatch a list of inbound messages in arrival order, accumulating gl
calls and posts. -/
def dispatchList (g : GLSpec) (workerId : JSVal) (st : ProxyState) : List Message → DispatchOut
  | [] => ⟨st, [], [], false⟩
  | m :: rest =>
      let o := onMessage g workerId st m
      let r := dispatchList g workerId o.state rest
      ⟨r.state, o.calls ++ r.calls, o.posts ++ r.posts, o.frameEndFired || r.frameEndFired⟩

/-- Execute a list of buffered messages in order, threading the state and
concatenating the gl call traces. -/
def execMsgs (g : GLSpec) (st : ProxyState) : List Message → ProxyState × List Cmd
  | [] => (st, [])
  | m :: rest =>
      let o := executeCommand g st m
      let r := execMsgs g o.state rest
      (r.1, o.calls ++ r.2)

/-- `WorkerGLProxy.executeFrameCommands`: stop buffering, execute every
buffered message in enqueued order, then clear the buffer. -/
def executeFrameCommands (g : GLSpec) (st : ProxyState) : ProxyState × List Cmd :=
  let st := { st with buffering := false }
  let r := execMsgs g st st.commandBuffer
  ({ r.1 with commandBuffer := [] }, r.2)

/-- `WorkerGLProxy.dropFrameCommands`: stop buffering and discard the
buffer without executing it. -/
def dropFrameCommands (st : ProxyState) : ProxyState :=
  { st with buffering := false, commandBuffer := [] }

/-- `WorkerGLProxy.getFrameCommands`: start buffering, pre-seed the buffer
with the sticky mode-setter (if any) followed by the targetted-bind cache
entries in insertion order, post the frame-begin signal, and register the
frame-end listener. -/
def getFrameCommands (st : ProxyState) (time : Int) : ProxyState × List Post :=
  let st := { st with buffering := true }
  let st :=
    match st.lastUseProgram with
    | some c => { st with commandBuffer := st.commandBuffer ++ [c.toMessage] }
    | none => st
  let st := { st with commandBuffer := st.commandBuffer ++ st.lastTargettedBinds.map (fun (p : String × Cmd) => Cmd.toMessage p.2) }
  ({ st with frameEndListener := true }, [Post.frame time])

/-- The worker-side module variable `let workerId;` of `gl-worker.js`: it
is declared and never assigned, so it reads as `undefined`. -/
def requesterWorkerId : JSVal := JSVal.undef

/-- The message `makeStub(functionName)` posts on invocation:
`{workerId, id: invokeId, name: functionName, args}`.  It carries no
`wantsResponse` and no `isFrameEnd` field, so both read as `undefined`
(falsy), and no `messages` field. -/
def stubMessage (invokeId : Nat) (functionName : String) (args : List JSVal) : Message :=
  ⟨⟨requesterWorkerId, invokeId, functionName, args, false, false⟩, none⟩

/-- The frame-end signal `{workerId, isFrameEnd: true}` the worker posts
after rendering a frame; its other fields are absent on the wire and
modelled by inert defaults, unread on any path this signal reaches. -/
def frameEndSignal : Message :=
  ⟨⟨requesterWorkerId, 0, "", [], false, true⟩, none⟩

/-- A gl context on which every method exists and every call returns the
fixed value `v`, bumping the abstract context state. -/
def glConst (v : JSVal) : GLSpec :=
  ⟨fun _ => true, fun _ _ s => (v, s + 1)⟩

/-- A gl context on which every method exists and every call returns a
fresh heap object (its reference number is the current context state). -/
def glFresh : GLSpec :=
  ⟨fun _ => true, fun _ _ s => (JSVal.obj s, s + 1)⟩

/-- The sticky-state entries of a proxy, in the order `getFrameCommands`
replays them: the mode-setter (if any) first, then the targetted-bind
entries in insertion order. -/
def seedCmds (st : ProxyState) : List Cmd :=
  st.lastUseProgram.toList ++ st.lastTargettedBinds.map Prod.snd

/-- The most recent mode-setter among a trace of executed commands, falling
back to `init` when the trace contains none. -/
def lastForModeFrom (init : Option Cmd) (calls : List Cmd) : Option Cmd :=
  calls.foldl (fun a c => if c.name == "useProgram" then some c else a) init

/-- The most recent targetted-bind command with cache key `k` among a trace
of executed commands, falling back to `init` when the trace has none. -/
def lastForKeyFrom (init : Option Cmd) (k : String) (calls : List Cmd) : Option Cmd :=
  calls.foldl (fun a c => if isTargettedBind c.name && (bindKeyOf c == k) then some c else a) init

/-- The proxy state at the start of a flush that follows a buffering window
opened by `getFrameCommands` at `time` during which the messages `ws` were
dispatched: the buffered state with the buffering flag lowered, exactly as
`executeFrameCommands` lowers it before replaying the queue. -/
def flushStartState (g : GLSpec) (wid : JSVal) (st : ProxyState) (ws : List Message) (time : Int) : ProxyState :=
  { (dispatchList g wid (getFrameCommands st time).1 ws).state with buffering := false }

/-! ### Association-list lemmas -/

theorem findA_setA {κ α : Type} [BEq κ] [LawfulBEq κ] (l : List (κ × α)) (k k' : κ) (v : α) :
    findA (setA l k v) k' = if k' == k then some v else findA l k' := by
  induction l with
  | nil =>
      simp only [setA, findA]
      by_cases h : k' = k
      · simp [h]
      · have h' : ¬ k = k' := fun hh => h hh.symm
        simp [beq_iff_eq, h, h']
  | cons p rest ih =>
      simp only [setA, findA]
      by_cases h : p.1 = k <;> by_cases h2 : p.1 = k' <;> by_cases h3 : k' = k <;>
        simp_all [findA, beq_iff_eq]

theorem mem_keys_setA {κ α : Type} [BEq κ] [LawfulBEq κ] (l : List (κ × α)) (k a : κ) (v : α)
    (h : a ∈ (setA l k v).map Prod.fst) : a ∈ l.map Prod.fst ∨ a = k := by
  induction l with
  | nil => simpa [setA] using h
  | cons p rest ih =>
      simp only [setA] at h
      by_cases hp : p.1 = k
      · simp only [hp, beq_self_eq_true, if_true, List.map_cons, List.mem_cons] at h
        rcases h with h | h
        · exact Or.inr h
        · exact Or.inl (List.mem_cons_of_mem _ h)
      · simp only [beq_iff_eq, hp, if_false, List.map_cons, List.mem_cons] at h
        rcases h with h | h
        · exact Or.inl (List.mem_cons.mpr (Or.inl h))
        · rcases ih h with h' | h'
          · exact Or.inl (List.mem_cons_of_mem _ h')
          · exact Or.inr h'

theorem keys_setA_nodup {κ α : Type} [BEq κ] [LawfulBEq κ] (l : List (κ × α)) (k : κ) (v : α)
    (h : (l.map Prod.fst).Nodup) : ((setA l k v).map Prod.fst).Nodup := by
  induction l with
  | nil => simp [setA]
  | cons p rest ih =>
      simp only [List.map_cons, List.nodup_cons] at h
      by_cases hp : p.1 = k
      · simp only [setA, hp, beq_self_eq_true, if_true, List.map_cons, List.nodup_cons]
        exact ⟨hp ▸ h.1, h.2⟩
      · simp only [setA, beq_iff_eq, hp, if_false, List.map_cons, List.nodup_cons]
        refine ⟨fun hmem => ?_, ih h.2⟩
        rcases mem_keys_setA rest k p.1 v hmem with h' | h'
        · exact h.1 h'
        · exact hp h'

/-! ### Single-step lemmas about `executeOneCommand` -/

theorem executeOneCommand_preserves (g : GLSpec) (st : ProxyState) (c : Cmd) :
    (executeOneCommand g st c).state.buffering = st.buffering ∧
    (executeOneCommand g st c).state.frameEndListener = st.frameEndListener ∧
    (executeOneCommand g st c).state.commandBuffer = st.commandBuffer := by
  simp only [executeOneCommand]
  split_ifs <;> simp

theorem executeOneCommand_calls_executed (g : GLSpec) (st : ProxyState) (c : Cmd)
    (hhas : g.has c.name = true) (hbl : blacklisted c.name = false) :
    (executeOneCommand g st c).calls =
      [{ c with args := c.args.map (resolveArg st.uncloneables) }] := by
  simp only [executeOneCommand]
  split_ifs <;> simp_all

theorem executeOneCommand_calls_skipped (g : GLSpec) (st : ProxyState) (c : Cmd)
    (h : g.has c.name = false ∨ blacklisted c.name = true) :
    executeOneCommand g st c = ⟨JSVal.undef, st, []⟩ := by
  rcases h with h | h <;> simp [executeOneCommand, h]

theorem executeOneCommand_mode (g : GLSpec) (st : ProxyState) (c : Cmd) :
    (executeOneCommand g st c).state.lastUseProgram =
      lastForModeFrom st.lastUseProgram (executeOneCommand g st c).calls := by
  simp only [executeOneCommand, lastForModeFrom]
  split_ifs <;> simp_all

theorem executeOneCommand_binds (g : GLSpec) (st : ProxyState) (c : Cmd) (k : String) :
    findA (executeOneCommand g st c).state.lastTargettedBinds k =
      lastForKeyFrom (findA st.lastTargettedBinds k) k (executeOneCommand g st c).calls := by
  simp only [executeOneCommand, lastForKeyFrom]
  split_ifs <;> simp_all [findA_setA, BEq.comm]

theorem executeOneCommand_nodup (g : GLSpec) (st : ProxyState) (c : Cmd)
    (h : (st.lastTargettedBinds.map Prod.fst).Nodup) :
    ((executeOneCommand g st c).state.lastTargettedBinds.map Prod.fst).Nodup := by
  simp only [executeOneCommand]
  split_ifs <;> simp_all [keys_setA_nodup]

/-! ### Lifted lemmas over command lists and message dispatch -/

theorem execCmds_preserves (g : GLSpec) (st : ProxyState) (cs : List Cmd) :
    (execCmds g st cs).1.buffering = st.buffering ∧
    (execCmds g st cs).1.frameEndListener = st.frameEndListener ∧
    (execCmds g st cs).1.commandBuffer = st.commandBuffer := by
  induction cs generalizing st with
  | nil => simp [execCmds]
  | cons c rest ih =>
      have h := executeOneCommand_preserves g st c
      have h2 := ih (executeOneCommand g st c).state
      simp only [execCmds]
      exact ⟨by rw [h2.1, h.1], by rw [h2.2.1, h.2.1], by rw [h2.2.2, h.2.2]⟩

theorem executeCommand_preserves (g : GLSpec) (st : ProxyState) (m : Message) :
    (executeCommand g st m).state.buffering = st.buffering ∧
    (executeCommand g st m).state.frameEndListener = st.frameEndListener ∧
    (executeCommand g st m).state.commandBuffer = st.commandBuffer := by
  cases hm : m.messages with
  | some ms => simpa [executeCommand, hm] using execCmds_preserves g st ms
  | none => simpa [executeCommand, hm] using executeOneCommand_preserves g st m.toCmd

theorem execMsgs_preserves (g : GLSpec) (st : ProxyState) (ms : List Message) :
    (execMsgs g st ms).1.buffering = st.buffering ∧
    (execMsgs g st ms).1.frameEndListener = st.frameEndListener ∧
    (execMsgs g st ms).1.commandBuffer = st.commandBuffer := by
  induction ms generalizing st with
  | nil => simp [execMsgs]
  | cons m rest ih =>
      have h := executeCommand_preserves g st m
      have h2 := ih (executeCommand g st m).state
      simp only [execMsgs]
      exact ⟨by rw [h2.1, h.1], by rw [h2.2.1, h.2.1], by rw [h2.2.2, h.2.2]⟩

theorem execMsgs_append (g : GLSpec) (st : ProxyState) (l1 l2 : List Message) :
    execMsgs g st (l1 ++ l2) =
      ((execMsgs g (execMsgs g st l1).1 l2).1,
       (execMsgs g st l1).2 ++ (execMsgs g (execMsgs g st l1).1 l2).2) := by
  induction l1 generalizing st with
  | nil => simp [execMsgs]
  | cons m rest ih => simp [execMsgs, ih, List.append_assoc]

theorem onMessage_buffering (g : GLSpec) (wid : JSVal) (st : ProxyState) (m : Message)
    (h1 : m.workerId = wid) (h2 : m.isFrameEnd = false) (h3 : st.buffering = true) :
    onMessage g wid st m =
      ⟨{ st with commandBuffer := st.commandBuffer ++ [m] }, [], [], false⟩ := by
  simp [onMessage, h1, h2, h3]

theorem dispatchList_buffering (g : GLSpec) (wid : JSVal) (st : ProxyState) (ws : List Message)
    (h3 : st.buffering = true)
    (hws : ∀ m ∈ ws, m.workerId = wid ∧ m.isFrameEnd = false) :
    dispatchList g wid st ws =
      ⟨{ st with commandBuffer := st.commandBuffer ++ ws }, [], [], false⟩ := by
  induction ws generalizing st with
  | nil => simp [dispatchList]
  | cons m rest ih =>
      have hm := hws m (List.mem_cons_self m rest)
      have hrest : ∀ m' ∈ rest, m'.workerId = wid ∧ m'.isFrameEnd = false :=
        fun m' hm' => hws m' (List.mem_cons_of_mem m hm')
      simp only [dispatchList, onMessage_buffering g wid st m hm.1 hm.2 h3,
        ih { st with commandBuffer := st.commandBuffer ++ [m] } h3 hrest]
      simp [List.append_assoc]

theorem getFrameCommands_eq (st : ProxyState) (time : Int) :
    getFrameCommands st time =
      ({ st with buffering := true, frameEndListener := true,
                 commandBuffer := st.commandBuffer ++ (seedCmds st).map Cmd.toMessage },
       [Post.frame time]) := by
  cases h : st.lastUseProgram <;>
    simp [getFrameCommands, seedCmds, h, List.append_assoc]

theorem lastForModeFrom_append (i : Option Cmd) (a b : List Cmd) :
    lastForModeFrom i (a ++ b) = lastForModeFrom (lastForModeFrom i a) b := by
  simp [lastForModeFrom, List.foldl_append]

theorem lastForKeyFrom_append (i : Option Cmd) (k : String) (a b : List Cmd) :
    lastForKeyFrom i k (a ++ b) = lastForKeyFrom (lastForKeyFrom i k a) k b := by
  simp [lastForKeyFrom, List.foldl_append]

theorem execMsgs_toMessage_names (g : GLSpec) (st : ProxyState) (cs : List Cmd)
    (h : ∀ c ∈ cs, g.has c.name = true ∧ blacklisted c.name = false) :
    ((execMsgs g st (cs.map Cmd.toMessage)).2).map Cmd.name = cs.map Cmd.name := by
  induction cs generalizing st with
  | nil => simp [execMsgs]
  | cons c rest ih =>
      have hc := h c (List.mem_cons_self c rest)
      have hrest : ∀ c' ∈ rest, g.has c'.name = true ∧ blacklisted c'.name = false :=
        fun c' hc' => h c' (List.mem_cons_of_mem c hc')
      simp only [List.map_cons, execMsgs, executeCommand, Cmd.toMessage]
      rw [executeOneCommand_calls_executed g st c hc.1 hc.2]
      simp [ih _ hrest]

/-! ### Claim theorems -/

/-- C1: the claim says the Reply sent for an immediately executed request
with `wantsResponse` carries the value the execution produced (primitive
as-is, or a handle reference).  The code's `executeCommand` has no return
statement, so the posted Reply always carries `undefined`: here executing
the request produces the primitive 42, yet the Reply posted back carries
`undefined`, which differs from 42. -/
theorem C1_reply_result_is_undefined :
    (executeOneCommand (glConst (JSVal.num 42)) (initState 0)
        ⟨JSVal.num 1, 5, "getError", [], true, false⟩).res = JSVal.num 42 ∧
    (onMessage (glConst (JSVal.num 42)) (JSVal.num 1) (initState 0)
        ⟨⟨JSVal.num 1, 5, "getError", [], true, false⟩, none⟩).posts =
      [Post.reply 5 JSVal.undef] ∧
    JSVal.undef ≠ JSVal.num 42 := by
  decide

/-- C7: a message whose workerId differs from the proxy's workerId is
dropped: the proxy state (buffering flag, pending queue, handle registry,
sticky caches, result trace, frame-end waiter) is returned unchanged, no
gl call happens, nothing is posted, and the frame-end waiter does not
fire. -/
theorem C7_routing_isolation (g : GLSpec) (wid : JSVal) (st : ProxyState) (m : Message)
    (h : m.workerId ≠ wid) :
    onMessage g wid st m = ⟨st, [], [], false⟩ := by
  simp [onMessage, h]

theorem C7_routing_isolation_witness :
    (JSVal.num 2 : JSVal) ≠ JSVal.num 1 ∧
    onMessage (glConst (JSVal.num 42)) (JSVal.num 1) (initState 3)
        ⟨⟨JSVal.num 2, 9, "getError", [], true, false⟩, none⟩ =
      ⟨initState 3, [], [], false⟩ :=
  ⟨by decide,
   C7_routing_isolation (glConst (JSVal.num 42)) (JSVal.num 1) (initState 3)
     ⟨⟨JSVal.num 2, 9, "getError", [], true, false⟩, none⟩ (by decide)⟩

/-- C9: a message posted by a generated call stub carries only
`{workerId, id, name, args}`; its `wantsResponse` field is absent, hence
falsy, so dispatching it never posts a Reply, whatever the proxy's state
and whichever execution path the message takes. -/
theorem C9_stub_requests_never_answered (g : GLSpec) (wid : JSVal) (st : ProxyState)
    (iid : Nat) (nm : String) (args : List JSVal) :
    (stubMessage iid nm args).wantsResponse = false ∧
    (onMessage g wid st (stubMessage iid nm args)).posts = [] := by
  refine ⟨rfl, ?_⟩
  simp only [onMessage]
  split_ifs <;> simp_all [stubMessage]

/-- C10: the worker-side `workerId` variable is never assigned, so every
stub message and the frame-end signal carry `workerId = undefined`; a
proxy whose own workerId is defined therefore drops every such message
with its state untouched. -/
theorem C10_undefined_workerId_never_routed (g : GLSpec) (wid : JSVal)
    (hwid : wid ≠ JSVal.undef) (st : ProxyState) (m : Message)
    (hm : m.workerId = JSVal.undef) :
    (∀ (iid : Nat) (nm : String) (args : List JSVal),
        (stubMessage iid nm args).workerId = JSVal.undef) ∧
    frameEndSignal.workerId = JSVal.undef ∧
    onMessage g wid st m = ⟨st, [], [], false⟩ := by
  refine ⟨fun _ _ _ => rfl, rfl, ?_⟩
  have h : m.workerId ≠ wid := by rw [hm]; exact fun hh => hwid hh.symm
  simp [onMessage, h]

/-- C2: counterexample to "a suppressed operation never produces a Reply":
a `clear` request with `wantsResponse` set, dispatched while not
buffering, does post a Reply (carrying `undefined`) even though no gl
operation is invoked. -/
theorem C2_suppressed_still_replied_counterexample :
    (onMessage (glConst (JSVal.num 42)) (JSVal.num 1) (initState 0)
        ⟨⟨JSVal.num 1, 3, "clear", [JSVal.num 7], true, false⟩, none⟩).posts ≠ [] ∧
    (onMessage (glConst (JSVal.num 42)) (JSVal.num 1) (initState 0)
        ⟨⟨JSVal.num 1, 3, "clear", [JSVal.num 7], true, false⟩, none⟩).calls = [] := by
  decide

/-- C2 (amended): executing a request whose name is on the suppression
list never invokes any operation on the gl context and leaves the proxy
state entirely unchanged, regardless of arguments; however, when the
request asked for a response, `onMessage` still posts a Reply, carrying
`undefined`. -/
theorem C2_suppressed_never_executes (g : GLSpec) (wid : JSVal) (st : ProxyState)
    (m : Message) (hname : m.name = "clear") (hmatch : m.workerId = wid)
    (hfe : (st.frameEndListener && m.isFrameEnd) = false)
    (hbuf : st.buffering = false) (hbatch : m.messages = none) :
    (onMessage g wid st m).state = st ∧
    (onMessage g wid st m).calls = [] ∧
    (onMessage g wid st m).posts =
      (if m.wantsResponse then [Post.reply m.id JSVal.undef] else []) ∧
    ∀ (st' : ProxyState) (c : Cmd), c.name = "clear" →
      executeOneCommand g st' c = ⟨JSVal.undef, st', []⟩ := by
  have hone : ∀ (st' : ProxyState) (c : Cmd), c.name = "clear" →
      executeOneCommand g st' c = ⟨JSVal.undef, st', []⟩ := by
    intro st' c hc
    cases hg : g.has c.name with
    | false => exact executeOneCommand_calls_skipped g st' c (Or.inl hg)
    | true =>
        exact executeOneCommand_calls_skipped g st' c (Or.inr (by simp [blacklisted, hc]))
  have hexec : executeCommand g st m = ⟨JSVal.undef, st, []⟩ := by
    simp [executeCommand, hbatch, hone st m.toCmd hname]
  refine ⟨?_, ?_, ?_, hone⟩ <;> simp [onMessage, hmatch, hfe, hbuf, hexec]

theorem C2_suppressed_never_executes_witness :
    ((⟨⟨JSVal.num 1, 3, "clear", [JSVal.num 7], true, false⟩, none⟩ : Message).name = "clear") ∧
    (onMessage (glConst (JSVal.num 42)) (JSVal.num 1) (initState 0)
        ⟨⟨JSVal.num 1, 3, "clear", [JSVal.num 7], true, false⟩, none⟩).state = initState 0 :=
  ⟨rfl,
   (C2_suppressed_never_executes (glConst (JSVal.num 42)) (JSVal.num 1) (initState 0)
      ⟨⟨JSVal.num 1, 3, "clear", [JSVal.num 7], true, false⟩, none⟩
      rfl rfl rfl rfl rfl).1⟩

/-- C3: an operation returning a non-primitive object is wrapped by
`executeOneCommand` as a handle reference, the raw object is stored in the
registry under the request id, and a later request passing that handle
gets the identical stored object substituted; but the Reply actually
posted back to the requester carries `undefined`, not the handle
reference, because `executeCommand` discards `executeOneCommand`'s
value. -/
theorem C3_handle_roundtrip_reply_undefined :
    (executeOneCommand glFresh (initState 7)
        ⟨JSVal.num 1, 5, "createBuffer", [], true, false⟩).res = JSVal.handle 5 ∧
    (onMessage glFresh (JSVal.num 1) (initState 7)
        ⟨⟨JSVal.num 1, 5, "createBuffer", [], true, false⟩, none⟩).state.uncloneables =
      [(5, JSVal.obj 7)] ∧
    (onMessage glFresh (JSVal.num 1)
        (onMessage glFresh (JSVal.num 1) (initState 7)
            ⟨⟨JSVal.num 1, 5, "createBuffer", [], true, false⟩, none⟩).state
        ⟨⟨JSVal.num 1, 6, "bindBuffer", [JSVal.num 34962, JSVal.handle 5], false, false⟩,
          none⟩).calls =
      [⟨JSVal.num 1, 6, "bindBuffer", [JSVal.num 34962, JSVal.obj 7], false, false⟩] ∧
    (onMessage glFresh (JSVal.num 1) (initState 7)
        ⟨⟨JSVal.num 1, 5, "createBuffer", [], true, false⟩, none⟩).posts =
      [Post.reply 5 JSVal.undef] := by
  decide

/-- C6: counterexample to "a falsy primitive result is appended to the
result trace": an operation returning the primitive 0 leaves the trace
empty, although the 0 is returned as-is. -/
theorem C6_falsy_primitive_not_traced_counterexample :
    (executeOneCommand (glConst (JSVal.num 0)) (initState 0)
        ⟨JSVal.num 1, 5, "getError", [], true, false⟩).res = JSVal.num 0 ∧
    (executeOneCommand (glConst (JSVal.num 0)) (initState 0)
        ⟨JSVal.num 1, 5, "getError", [], true, false⟩).state.cache = [] := by
  decide

/-- C6 (amended): for an executed request whose operation returns a
non-object value, the value is returned as-is; an `{args, res}` entry is
appended to that operation's result trace exactly when the value is
truthy, while falsy primitives (0, false, the empty string, undefined)
leave the trace untouched. -/
theorem C6_truthy_primitive_traced (g : GLSpec) (st : ProxyState) (c : Cmd)
    (v : JSVal) (s' : Nat)
    (hhas : g.has c.name = true) (hbl : blacklisted c.name = false)
    (hrun : g.run c.name (c.args.map (resolveArg st.uncloneables)) st.glState = (v, s'))
    (hobj : v.isObjectType = false) :
    (executeOneCommand g st c).res = v ∧
    (v.truthy = true →
      (executeOneCommand g st c).state.cache =
        setA st.cache c.name (((findA st.cache c.name).getD []) ++
          [⟨c.args.map (resolveArg st.uncloneables), v⟩])) ∧
    (v.truthy = false → (executeOneCommand g st c).state.cache = st.cache) := by
  simp only [executeOneCommand]
  split_ifs <;> simp_all

theorem C6_truthy_primitive_traced_witness :
    (glConst (JSVal.num 42)).has "getError" = true ∧
    (executeOneCommand (glConst (JSVal.num 42)) (initState 0)
        ⟨JSVal.num 1, 5, "getError", [], true, false⟩).res = JSVal.num 42 :=
  ⟨rfl,
   (C6_truthy_primitive_traced (glConst (JSVal.num 42)) (initState 0)
      ⟨JSVal.num 1, 5, "getError", [], true, false⟩ (JSVal.num 42) 1
      rfl (by decide) rfl rfl).1⟩

theorem C10_undefined_workerId_never_routed_witness :
    (JSVal.num 1 : JSVal) ≠ JSVal.undef ∧
    onMessage (glConst (JSVal.num 42)) (JSVal.num 1) (initState 4) frameEndSignal =
      ⟨initState 4, [], [], false⟩ :=
  ⟨by decide,
   (C10_undefined_workerId_never_routed (glConst (JSVal.num 42)) (JSVal.num 1)
      (by decide) (initState 4) frameEndSignal rfl).2.2⟩

/-- C4: messages dispatched while buffering are appended to the pending
queue in arrival order without being executed or answered; flushing then
leaves the queue empty with buffering off, and the gl call trace of the
flush is the trace of the previously enqueued messages followed by the
trace of the window's messages, each executed in enqueued order. -/
theorem C4_buffered_order_preserved (g : GLSpec) (wid : JSVal) (st : ProxyState)
    (ws : List Message) (hbuf : st.buffering = true)
    (hws : ∀ m ∈ ws, m.workerId = wid ∧ m.isFrameEnd = false) :
    dispatchList g wid st ws =
      ⟨{ st with commandBuffer := st.commandBuffer ++ ws }, [], [], false⟩ ∧
    (executeFrameCommands g { st with commandBuffer := st.commandBuffer ++ ws }).1.commandBuffer
      = [] ∧
    (executeFrameCommands g { st with commandBuffer := st.commandBuffer ++ ws }).1.buffering
      = false ∧
    (executeFrameCommands g { st with commandBuffer := st.commandBuffer ++ ws }).2 =
      (execMsgs g { st with buffering := false, commandBuffer := st.commandBuffer ++ ws }
          st.commandBuffer).2 ++
      (execMsgs g
          (execMsgs g { st with buffering := false, commandBuffer := st.commandBuffer ++ ws }
            st.commandBuffer).1 ws).2 := by
  refine ⟨dispatchList_buffering g wid st ws hbuf hws, rfl, ?_, ?_⟩
  · have h := execMsgs_preserves g
      { st with buffering := false, commandBuffer := st.commandBuffer ++ ws }
      (st.commandBuffer ++ ws)
    simpa [executeFrameCommands] using h.1
  · simp only [executeFrameCommands]
    rw [execMsgs_append]

theorem C4_buffered_order_preserved_witness :
    ({ initState 0 with buffering := true } : ProxyState).buffering = true ∧
    dispatchList (glConst (JSVal.num 42)) (JSVal.num 1) { initState 0 with buffering := true }
        [⟨⟨JSVal.num 1, 1, "enable", [JSVal.num 2929], false, false⟩, none⟩,
         ⟨⟨JSVal.num 1, 2, "depthFunc", [JSVal.num 515], false, false⟩, none⟩] =
      ⟨{ initState 0 with buffering := true, commandBuffer := [⟨⟨JSVal.num 1, 1, "enable", [JSVal.num 2929], false, false⟩, none⟩, ⟨⟨JSVal.num 1, 2, "depthFunc", [JSVal.num 515], false, false⟩, none⟩] },
       [], [], false⟩ :=
  ⟨rfl,
   (C4_buffered_order_preserved (glConst (JSVal.num 42)) (JSVal.num 1)
      { initState 0 with buffering := true }
      [⟨⟨JSVal.num 1, 1, "enable", [JSVal.num 2929], false, false⟩, none⟩,
       ⟨⟨JSVal.num 1, 2, "depthFunc", [JSVal.num 515], false, false⟩, none⟩]
      rfl (by decide)).1⟩

/-- C5: opening a window with an empty queue pre-seeds the queue with the
sticky mode-setter (if any) followed by the targetted-bind entries;
window messages are appended after them; and the flush's gl call trace is
the trace of the sticky entries (one call per entry, in mode-setter-first
order, when each seeded operation exists on the context and is not
suppressed) followed by the trace of the window's own messages. -/
theorem C5_sticky_state_replayed_first (g : GLSpec) (wid : JSVal) (st : ProxyState)
    (ws : List Message) (time : Int)
    (hempty : st.commandBuffer = [])
    (hws : ∀ m ∈ ws, m.workerId = wid ∧ m.isFrameEnd = false)
    (hseed : ∀ c ∈ seedCmds st, g.has c.name = true ∧ blacklisted c.name = false) :
    (getFrameCommands st time).1.commandBuffer = (seedCmds st).map Cmd.toMessage ∧
    (dispatchList g wid (getFrameCommands st time).1 ws).state.commandBuffer =
      (seedCmds st).map Cmd.toMessage ++ ws ∧
    (executeFrameCommands g (dispatchList g wid (getFrameCommands st time).1 ws).state).2 =
      (execMsgs g (flushStartState g wid st ws time) ((seedCmds st).map Cmd.toMessage)).2 ++
      (execMsgs g
          (execMsgs g (flushStartState g wid st ws time) ((seedCmds st).map Cmd.toMessage)).1
          ws).2 ∧
    ((execMsgs g (flushStartState g wid st ws time) ((seedCmds st).map Cmd.toMessage)).2).map
        Cmd.name =
      (seedCmds st).map Cmd.name := by
  have h1 : (getFrameCommands st time).1.commandBuffer = (seedCmds st).map Cmd.toMessage := by
    rw [getFrameCommands_eq]
    simp [hempty]
  have hb : (getFrameCommands st time).1.buffering = true := by
    rw [getFrameCommands_eq]
  have hd := dispatchList_buffering g wid (getFrameCommands st time).1 ws hb hws
  have h2 : (dispatchList g wid (getFrameCommands st time).1 ws).state.commandBuffer =
      (seedCmds st).map Cmd.toMessage ++ ws := by
    rw [hd]
    simp [h1]
  refine ⟨h1, h2, ?_, execMsgs_toMessage_names g _ (seedCmds st) hseed⟩
  simp only [executeFrameCommands, flushStartState]
  rw [show ({ (dispatchList g wid (getFrameCommands st time).1 ws).state with
        buffering := false } : ProxyState).commandBuffer =
      (seedCmds st).map Cmd.toMessage ++ ws from h2]
  rw [execMsgs_append]

theorem C5_sticky_state_replayed_first_witness :
    (({ initState 0 with
        lastUseProgram := some ⟨JSVal.num 1, 2, "useProgram", [JSVal.obj 9], false, false⟩,
        lastTargettedBinds :=
          [("bindBuffer-34962",
            ⟨JSVal.num 1, 3, "bindBuffer", [JSVal.num 34962, JSVal.obj 4], false, false⟩)] }
      : ProxyState).commandBuffer = []) ∧
    (getFrameCommands
        { initState 0 with
          lastUseProgram := some ⟨JSVal.num 1, 2, "useProgram", [JSVal.obj 9], false, false⟩,
          lastTargettedBinds :=
            [("bindBuffer-34962",
              ⟨JSVal.num 1, 3, "bindBuffer", [JSVal.num 34962, JSVal.obj 4], false, false⟩)] }
        100).1.commandBuffer =
      (seedCmds
        { initState 0 with
          lastUseProgram := some ⟨JSVal.num 1, 2, "useProgram", [JSVal.obj 9], false, false⟩,
          lastTargettedBinds :=
            [("bindBuffer-34962",
              ⟨JSVal.num 1, 3, "bindBuffer", [JSVal.num 34962, JSVal.obj 4], false, false⟩)] }).map
        Cmd.toMessage :=
  ⟨rfl,
   (C5_sticky_state_replayed_first (glConst (JSVal.num 42)) (JSVal.num 1)
      { initState 0 with
        lastUseProgram := some ⟨JSVal.num 1, 2, "useProgram", [JSVal.obj 9], false, false⟩,
        lastTargettedBinds :=
          [("bindBuffer-34962",
            ⟨JSVal.num 1, 3, "bindBuffer", [JSVal.num 34962, JSVal.obj 4], false, false⟩)] }
      [] 100 rfl (by decide) (by decide)).1⟩

/-- C8: after executing any batch of commands, the targetted-bind cache
still has pairwise-distinct keys (at most one entry per key), the
mode-setter slot holds the most recently executed `useProgram` command
(falling back to its previous content), and the entry under each
targetted-bind key is the most recently executed bind command whose cache
key matches (falling back to its previous content). -/
theorem C8_sticky_cache_invariant (g : GLSpec) (st : ProxyState) (cs : List Cmd)
    (h : (st.lastTargettedBinds.map Prod.fst).Nodup) :
    ((execCmds g st cs).1.lastTargettedBinds.map Prod.fst).Nodup ∧
    (execCmds g st cs).1.lastUseProgram =
      lastForModeFrom st.lastUseProgram (execCmds g st cs).2 ∧
    ∀ k, findA (execCmds g st cs).1.lastTargettedBinds k =
      lastForKeyFrom (findA st.lastTargettedBinds k) k (execCmds g st cs).2 := by
  induction cs generalizing st with
  | nil => exact ⟨h, rfl, fun k => rfl⟩
  | cons c rest ih =>
      have hstep := executeOneCommand_nodup g st c h
      have ihs := ih (executeOneCommand g st c).state hstep
      refine ⟨?_, ?_, fun k => ?_⟩
      · simpa only [execCmds] using ihs.1
      · simp only [execCmds]
        rw [ihs.2.1, executeOneCommand_mode, lastForModeFrom_append]
      · simp only [execCmds]
        rw [ihs.2.2 k, executeOneCommand_binds, lastForKeyFrom_append]

theorem C8_sticky_cache_invariant_witness :
    (((initState 0).lastTargettedBinds.map Prod.fst).Nodup) ∧
    findA (execCmds (glConst (JSVal.num 42)) (initState 0)
        [⟨JSVal.num 1, 1, "bindBuffer", [JSVal.num 34962, JSVal.num 3], false, false⟩]).1.lastTargettedBinds
        "bindBuffer-34962" =
      lastForKeyFrom (findA (initState 0).lastTargettedBinds "bindBuffer-34962") "bindBuffer-34962"
        (execCmds (glConst (JSVal.num 42)) (initState 0)
          [⟨JSVal.num 1, 1, "bindBuffer", [JSVal.num 34962, JSVal.num 3], false, false⟩]).2 :=
  ⟨by decide,
   (C8_sticky_cache_invariant (glConst (JSVal.num 42)) (initState 0)
      [⟨JSVal.num 1, 1, "bindBuffer", [JSVal.num 34962, JSVal.num 3], false, false⟩]
      (by decide)).2.2 "bindBuffer-34962"⟩

end WebGLProxy
